import Mathlib

/-
Shallow embedding of the predicate-evaluation core in src/src/executor/filter.rs
(the WHERE-clause evaluator of an embeddable SQL engine), together with proofs
of the specified properties.  Rust `Result` becomes `Except Error`, iterators of
`Result<Row>` become `List (Except Error Row)`, references become plain values,
and the external Store collaborator becomes a record of oracle functions.
-/

namespace GlueFilter

/-- Modelled from the spec: a Literal is an untyped syntactic scalar coming
from the parsed expression tree (the nom_sql Literal type, which is not under
src/); its own equality is the derived structural one. -/
inductive Literal where
  | null : Literal
  | integer (n : Int) : Literal
  | string (s : String) : Literal
deriving DecidableEq, Repr

/-- Modelled from the spec: a Value is a typed scalar produced by storage
(crate data::Value, not under src/); its own equality is the derived
structural one. -/
inductive Value where
  | i64 (n : Int) : Value
  | str (s : String) : Value
deriving DecidableEq, Repr

/-- Modelled from the spec: Literal-vs-Value equality delegates to the storage
type system scalar equality (the PartialEq impl of Value against Literal in
crate data, not under src/): an integer value equals an integer literal with
the same number, a string value equals a string literal with the same text,
and nothing else is equal. -/
def Value.eqLiteral : Value → Literal → Bool
  | .i64 n, .integer m => decide (n = m)
  | .str s, .string t => decide (s = t)
  | _, _ => false

/-- Column identifiers are names (nom_sql Column, reduced to its name). -/
abbrev Column := String

/-- Table identifiers are names (nom_sql Table, reduced to its name). -/
abbrev Table := String

/-- A Row is an ordered sequence of Values aligned positionally with a
Column list. -/
abbrev Row := List Value

/-- A nested SELECT statement is opaque to this core: it is only handed to the
Store collaborator, never inspected.  We model it by an identifier. -/
abbrev SelectStatement := Nat

/-- Already-bound select parameters, as produced by fetch_select_params. -/
abbrev Params := List Value

/-- The error type of crate result::Error restricted to what this core can
produce: the three FilterError variants declared in src/src/executor/filter.rs,
plus (modelled from the spec) the field-not-found error of scope resolution,
opaque storage errors passed through unchanged, and the error of taking the
first value of an empty row. -/
inductive Error where
  | nestedSelectRowNotFound : Error
  | unreachableConditionBase : Error
  | unimplemented : Error
  | fieldNotFound : Error
  | storage (code : Nat) : Error
  | emptyRow : Error
deriving DecidableEq, Repr

/-- Modelled from the spec: a Scope Context frame {table, columns, row, parent}
(the FilterContext type of the executor, not under src/): an immutable
backward-linked chain used to resolve column references innermost-first. -/
inductive FilterContext where
  | frame (table : Table) (columns : List Column) (row : Row)
      (next : Option FilterContext) : FilterContext

/-- Modelled from the spec: resolve(column) scans the current frame columns
for a name match and returns the positionally aligned row value; on miss it
delegates to the parent frame; if no frame matches it fails with the
field-not-found error. -/
def FilterContext.get_value : FilterContext → Column → Except Error Value
  | .frame _ columns row next, column =>
    match columns.findIdx? (fun c => c == column) with
    | some i =>
      match row[i]? with
      | some v => .ok v
      | none => .error .fieldNotFound
    | none =>
      match next with
      | some parent => parent.get_value column
      | none => .error .fieldNotFound

/-- Modelled from the spec: the Store capability consumed by this core —
fetch_select_params binds parameter values for a statement, and select runs a
SELECT statement under an optional outer scope, yielding a lazy finite
sequence of rows (modelled as a list of row results) or an error. -/
structure Store where
  fetch_select_params : SelectStatement → Except Error Params
  select : SelectStatement → Params → Option FilterContext →
      Except Error (List (Except Error Row))

/-- The Parsed tagged union of filter.rs: a literal reference, a stored-value
reference, or an owned value materialized from a nested SELECT. -/
inductive Parsed where
  | literalRef (l : Literal) : Parsed
  | valueRef (v : Value) : Parsed
  | value (v : Value) : Parsed
deriving Repr

/-- The PartialEq impl for Parsed in filter.rs, case by case.  Every mixed
literal/value case calls the Value-against-Literal equality with the value on
the left, exactly as the source does with its reference comparisons. -/
def Parsed.eq : Parsed → Parsed → Bool
  | .literalRef lr, .literalRef lr2 => decide (lr = lr2)
  | .literalRef lr, .valueRef vr => Value.eqLiteral vr lr
  | .literalRef lr, .value v => Value.eqLiteral v lr
  | .value v, .literalRef lr => Value.eqLiteral v lr
  | .value v, .valueRef vr => decide (v = vr)
  | .value v, .value v2 => decide (v = v2)
  | .valueRef vr, .literalRef lr => Value.eqLiteral vr lr
  | .valueRef vr, .valueRef vr2 => decide (vr = vr2)
  | .valueRef vr, .value v => decide (v = vr)

/-- The ParsedList tagged union of filter.rs: a referenced literal list, a
deferred nested-SELECT enumeration (capturing the statement and the outer
scope; the storage reference it also captures in the source is passed
explicitly to exists_in here), or a single parsed value. -/
inductive ParsedList where
  | literalRef (literals : List Literal) : ParsedList
  | value (statement : SelectStatement) (filter_context : FilterContext) : ParsedList
  | parsed (p : Parsed) : ParsedList

/-- Modelled from the spec: take_first_value of a Row (crate data::Row, not
under src/) takes the first column of the row, failing on an empty row. -/
def Row.take_first_value : Row → Except Error Value
  | [] => .error .emptyRow
  | v :: _ => .ok v

/-- The row scan inside exists_in for the nested-SELECT case of filter.rs:
take each row result first column in order; an error row (or an error taking
its first value) is surfaced immediately; the first value equal to the needle
stops the scan with true; exhaustion yields false. -/
def scanRows (self : Parsed) : List (Except Error Row) → Except Error Bool
  | [] => .ok false
  | r :: rest =>
    match r.bind Row.take_first_value with
    | .error e => .error e
    | .ok v =>
      if Parsed.eq (.value v) self then .ok true else scanRows self rest

/-- Parsed::exists_in of filter.rs: membership of self in a ParsedList.
A single parsed value is an equality test; a referenced literal list is a
linear scan comparing each literal against self; a deferred nested SELECT is
run through the Store under the captured outer scope and its first-column
values are scanned. -/
def Parsed.exists_in (storage : Store) (self : Parsed) :
    ParsedList → Except Error Bool
  | .parsed p => .ok (Parsed.eq p self)
  | .literalRef literals =>
      .ok (literals.any (fun literal => Parsed.eq (.literalRef literal) self))
  | .value statement filter_context => do
      let params ← storage.fetch_select_params statement
      let rows ← storage.select statement params (some filter_context)
      scanRows self rows

/-- The base terms of the condition-expression AST (nom_sql ConditionBase):
field reference, literal, literal list, nested SELECT. -/
inductive ConditionBase where
  | field (column : Column) : ConditionBase
  | literal (l : Literal) : ConditionBase
  | literalList (literals : List Literal) : ConditionBase
  | nestedSelect (statement : SelectStatement) : ConditionBase

/-- The nom_sql Operator enumeration carried by comparison and logical
tree nodes. -/
inductive Operator where
  | notOp | andOp | orOp | like | notLike | equal | notEqual
  | greater | greaterOrEqual | less | lessOrEqual | inOp | is
deriving DecidableEq, Repr

mutual

/-- The nom_sql ConditionExpression AST: comparison tree, logical tree,
negation, bracketed sub-expression, arithmetic sub-expression (opaque here:
this core never evaluates it), and base term. -/
inductive ConditionExpression where
  | comparisonOp (tree : ConditionTree) : ConditionExpression
  | logicalOp (tree : ConditionTree) : ConditionExpression
  | negationOp (expr : ConditionExpression) : ConditionExpression
  | bracketed (expr : ConditionExpression) : ConditionExpression
  | arithmetic (a : Nat) : ConditionExpression
  | base (b : ConditionBase) : ConditionExpression

/-- The nom_sql ConditionTree: an operator with left and right operands. -/
inductive ConditionTree where
  | mk (operator : Operator) (left : ConditionExpression)
      (right : ConditionExpression) : ConditionTree

end

/-- parse_expr of filter.rs: convert a scalar condition expression to a
Parsed value.  Only base terms are accepted; a field resolves through the
scope chain, a literal is referenced as-is, a nested SELECT is executed under
the current scope as outer context and the first column of its first row is
materialized (zero rows fail with NestedSelectRowNotFound), and a literal
list fails with UnreachableConditionBase. -/
def parse_expr (storage : Store) (filter_context : FilterContext) :
    ConditionExpression → Except Error Parsed
  | .base b =>
    match b with
    | .field column =>
        (filter_context.get_value column).map (fun value => Parsed.valueRef value)
    | .literal l => .ok (.literalRef l)
    | .nestedSelect statement => do
        let params ← storage.fetch_select_params statement
        let rows ← storage.select statement params (some filter_context)
        match rows with
        | [] => .error .nestedSelectRowNotFound
        | r :: _ => do
            let row ← r
            let value ← Row.take_first_value row
            pure (.value value)
    | .literalList _ => .error .unreachableConditionBase
  | _ => .error .unimplemented

/-- parse_in_expr of filter.rs: convert the right-hand side of a
set-membership test to a ParsedList.  A field or literal becomes a single
parsed value, a literal list is referenced, and a nested SELECT becomes a
deferred enumeration capturing the statement and the current scope. -/
def parse_in_expr (storage : Store) (filter_context : FilterContext) :
    ConditionExpression → Except Error ParsedList
  | .base b =>
    match b with
    | .field column =>
        (filter_context.get_value column).map
          (fun value => ParsedList.parsed (.valueRef value))
    | .literal l => .ok (.parsed (.literalRef l))
    | .literalList literals => .ok (.literalRef literals)
    | .nestedSelect statement => .ok (.value statement filter_context)
  | _ => .error .unimplemented

mutual

/-- check_expr of filter.rs: recursive evaluation of a condition expression
to a boolean verdict. -/
def check_expr (storage : Store) (filter_context : FilterContext) :
    ConditionExpression → Except Error Bool
  | .comparisonOp tree => check_tree storage filter_context tree
  | .logicalOp tree => check_tree storage filter_context tree
  | .negationOp expr => (check_expr storage filter_context expr).map (fun b => !b)
  | .bracketed expr => check_expr storage filter_context expr
  | .arithmetic _ => .error .unimplemented
  | .base _ => .error .unimplemented

/-- check_tree inside check_expr of filter.rs: Equal and NotEqual parse both
operands and compare; And and Or evaluate both operands (left first, errors
propagating) and combine; In parses the left operand and a list from the
right operand and tests membership; every other operator is Unimplemented. -/
def check_tree (storage : Store) (filter_context : FilterContext) :
    ConditionTree → Except Error Bool
  | .mk operator left right =>
    match operator with
    | .equal => do
        let l ← parse_expr storage filter_context left
        let r ← parse_expr storage filter_context right
        pure (Parsed.eq l r)
    | .notEqual => do
        let l ← parse_expr storage filter_context left
        let r ← parse_expr storage filter_context right
        pure (!Parsed.eq l r)
    | .andOp => do
        let l ← check_expr storage filter_context left
        let r ← check_expr storage filter_context right
        pure (l && r)
    | .orOp => do
        let l ← check_expr storage filter_context left
        let r ← check_expr storage filter_context right
        pure (l || r)
    | .inOp => do
        let l ← parse_expr storage filter_context left
        let r ← parse_in_expr storage filter_context right
        Parsed.exists_in storage l r
    | _ => .error .unimplemented

end

/-- Modelled from the spec: a Join Context frame {table, columns, row, next}
(the BlendContext type of the executor, not under src/), next pointing to the
frame of the next joined table. -/
inductive BlendContext where
  | frame (table : Table) (columns : List Column) (row : Row)
      (next : Option BlendContext) : BlendContext

/-- check_blended_expr of filter.rs: fold the current join frame onto the
optional outer scope into a new scope frame, recurse into the next joined
frame with that scope as outer context, and evaluate the expression with
check_expr once the join chain is exhausted. -/
def check_blended_expr (storage : Store) (filter_context : Option FilterContext)
    (blend_context : BlendContext) (expr : ConditionExpression) :
    Except Error Bool :=
  match blend_context with
  | .frame table columns row next =>
    let filter_context2 := FilterContext.frame table columns row filter_context
    match next with
    | some blend_context2 =>
        check_blended_expr storage (some filter_context2) blend_context2 expr
    | none => check_expr storage filter_context2 expr

/-- The Filter entry point of filter.rs: a storage handle, an optional WHERE
clause and an optional outer scope for correlation. -/
structure Filter where
  storage : Store
  where_clause : Option ConditionExpression
  context : Option FilterContext

/-- Filter::check of filter.rs: build a scope frame for the candidate row on
top of the optional outer context, then evaluate the WHERE clause with
check_expr; with no WHERE clause the verdict is true. -/
def Filter.check (self : Filter) (table : Table) (columns : List Column)
    (row : Row) : Except Error Bool :=
  let context := FilterContext.frame table columns row self.context
  match self.where_clause with
  | some expr => check_expr self.storage context expr
  | none => .ok true

/-- Filter::check_blended of filter.rs. -/
def Filter.check_blended (self : Filter) (blend_context : BlendContext) :
    Except Error Bool :=
  match self.where_clause with
  | some expr => check_blended_expr self.storage self.context blend_context expr
  | none => .ok true

/-- The BlendedFilter entry point of filter.rs: a Filter plus an optional
join-row chain. -/
structure BlendedFilter where
  filter : Filter
  context : Option BlendContext

/-- BlendedFilter::check of filter.rs: build a scope frame for the candidate
row on top of the Filter outer context; with no WHERE clause the verdict is
true; with a join chain delegate to check_blended_expr, otherwise to
check_expr. -/
def BlendedFilter.check (self : BlendedFilter) (table : Table)
    (columns : List Column) (row : Row) : Except Error Bool :=
  let filter_context := FilterContext.frame table columns row self.filter.context
  match self.filter.where_clause with
  | none => .ok true
  | some expr =>
    match self.context with
    | some blend_context =>
        check_blended_expr self.filter.storage (some filter_context)
          blend_context expr
    | none => check_expr self.filter.storage filter_context expr

/-! Concrete fixtures used by witnesses: a store whose select always fails
with an opaque storage error, a store yielding two one-column rows, an empty
scope frame, and small condition expressions. -/

/-- A store whose select always fails with an opaque storage error. -/
def eStore : Store := ⟨fun _ => .ok [], fun _ _ _ => .error (.storage 7)⟩

/-- A store whose select yields the rows [5] and [6]. -/
def rowStore : Store :=
  ⟨fun _ => .ok [], fun _ _ _ => .ok [.ok [Value.i64 5], .ok [Value.i64 6]]⟩

/-- An empty scope frame. -/
def ctx0 : FilterContext := .frame "t" [] [] none

/-- The predicate 1 = 2, which evaluates to false. -/
def falseExpr : ConditionExpression :=
  .comparisonOp ⟨.equal, .base (.literal (.integer 1)), .base (.literal (.integer 2))⟩

/-- A predicate containing a nested SELECT, whose evaluation surfaces the
select error of the store it is run against. -/
def errSelectExpr : ConditionExpression :=
  .comparisonOp ⟨.equal, .base (.nestedSelect 0), .base (.literal (.integer 1))⟩

/-- C3: Equality between two Parsed values is symmetric: for all Parsed
values a and b, in every combination of the three representations (literal
reference, stored-value reference, owned value), eq a b = eq b a. -/
theorem parsed_eq_symm (a b : Parsed) : Parsed.eq a b = Parsed.eq b a := by
  cases a <;> cases b <;> simp [Parsed.eq] <;> exact eq_comm

/-- C7: exists_in over a referenced literal list returns, without any error,
true exactly when the needle equals (under cross-representation Parsed
equality) at least one literal of the list; on the empty list it returns
false. -/
theorem exists_in_literal_list (storage : Store) (self : Parsed)
    (literals : List Literal) :
    Parsed.exists_in storage self (.literalRef literals)
      = .ok (literals.any (fun l => Parsed.eq (.literalRef l) self))
    ∧ (Parsed.exists_in storage self (.literalRef literals) = .ok true ↔
        ∃ l ∈ literals, Parsed.eq (.literalRef l) self = true)
    ∧ Parsed.exists_in storage self (.literalRef ([] : List Literal))
      = .ok false := by
  refine ⟨rfl, ?_, rfl⟩
  simp [Parsed.exists_in, List.any_eq_true]

/-- C8: parse_expr applied to a literal-list base term returns the
UnreachableConditionBase error value (the function is total: it propagates
the error, it does not panic). -/
theorem parse_expr_literal_list_unreachable (storage : Store)
    (filter_context : FilterContext) (literals : List Literal) :
    parse_expr storage filter_context (.base (.literalList literals))
      = .error .unreachableConditionBase := rfl

/-- C10: with no WHERE clause, Filter::check and BlendedFilter::check return
Ok true for every store, outer context, join chain, table, column list and
row — in particular no error is possible and the result does not depend on
the store. -/
theorem check_without_where_clause (storage : Store)
    (next : Option FilterContext) (table : Table) (columns : List Column)
    (row : Row) :
    Filter.check ⟨storage, none, next⟩ table columns row = .ok true
    ∧ ∀ bctx : Option BlendContext,
        BlendedFilter.check ⟨⟨storage, none, next⟩, bctx⟩ table columns row
          = .ok true :=
  ⟨rfl, fun _ => rfl⟩

/-- Reduction of the Except monad bind on a success value. -/
theorem ok_bind {α β : Type} (a : α) (f : α → Except Error β) :
    (Except.ok a : Except Error α) >>= f = f a := rfl

/-- Reduction of the Except monad bind on an error value. -/
theorem error_bind {α β : Type} (e : Error) (f : α → Except Error β) :
    (Except.error e : Except Error α) >>= f = .error e := rfl

/-- C1: for an And/Or logical node whose left operand evaluates without error
to lb, the whole node evaluates exactly as the right operand mapped through
the boolean combination — so the right operand is always evaluated and any
error it raises surfaces, even when lb alone already determines the result
(no short-circuiting). -/
theorem and_or_right_operand_always_evaluated (storage : Store)
    (filter_context : FilterContext) (left right : ConditionExpression)
    (lb : Bool)
    (h : check_expr storage filter_context left = .ok lb) :
    check_expr storage filter_context (.logicalOp ⟨.andOp, left, right⟩)
      = (check_expr storage filter_context right).map (fun rb => lb && rb)
    ∧ check_expr storage filter_context (.logicalOp ⟨.orOp, left, right⟩)
      = (check_expr storage filter_context right).map (fun rb => lb || rb) := by
  constructor <;>
    · show check_tree storage filter_context _ = _
      simp only [check_tree, h, Except.bind]
      cases check_expr storage filter_context right <;> rfl

/-- Witness for C1: the concrete predicate false AND (nested SELECT whose
subquery errors) surfaces the subquery storage error instead of Ok false. -/
theorem and_or_right_operand_always_evaluated_witness :
    check_expr eStore ctx0 (.logicalOp ⟨.andOp, falseExpr, errSelectExpr⟩)
      = .error (.storage 7) := by
  have h := (and_or_right_operand_always_evaluated eStore ctx0 falseExpr
    errSelectExpr false rfl).1
  rw [h]; rfl

/-- C9: operands of an And/Or logical node are evaluated left first: if the
left operand evaluates to an error, that error is the result for every right
operand, which is therefore never evaluated. -/
theorem and_or_left_error_propagates (storage : Store)
    (filter_context : FilterContext) (left right : ConditionExpression)
    (e : Error)
    (h : check_expr storage filter_context left = .error e) :
    check_expr storage filter_context (.logicalOp ⟨.andOp, left, right⟩)
      = .error e
    ∧ check_expr storage filter_context (.logicalOp ⟨.orOp, left, right⟩)
      = .error e := by
  constructor <;>
    · show check_tree storage filter_context _ = _
      simp only [check_tree, h]
      rfl

/-- Witness for C9: with an erroring nested SELECT on the left of an Or, the
storage error is returned. -/
theorem and_or_left_error_propagates_witness :
    check_expr eStore ctx0 (.logicalOp ⟨.orOp, errSelectExpr, falseExpr⟩)
      = .error (.storage 7) :=
  (and_or_left_error_propagates eStore ctx0 errSelectExpr falseExpr
    (.storage 7) rfl).2

/-- C2: a nested SELECT parsed by parse_expr is executed through the Store
bound to the current scope as outer context; zero result rows fail with
NestedSelectRowNotFound; a first row yielding value v gives Parsed value v
whatever further rows exist (first row wins, no error on multiple rows); an
error first row propagates. -/
theorem parse_expr_nested_select_first_row (storage : Store)
    (filter_context : FilterContext) (statement : SelectStatement)
    (params : Params)
    (hp : storage.fetch_select_params statement = .ok params) :
    (storage.select statement params (some filter_context) = .ok [] →
        parse_expr storage filter_context (.base (.nestedSelect statement))
          = .error .nestedSelectRowNotFound)
    ∧ (∀ (row : Row) (rest : List (Except Error Row)) (v : Value),
        storage.select statement params (some filter_context)
          = .ok (.ok row :: rest) →
        Row.take_first_value row = .ok v →
        parse_expr storage filter_context (.base (.nestedSelect statement))
          = .ok (.value v))
    ∧ (∀ (e : Error) (rest : List (Except Error Row)),
        storage.select statement params (some filter_context)
          = .ok (.error e :: rest) →
        parse_expr storage filter_context (.base (.nestedSelect statement))
          = .error e) := by
  refine ⟨fun hs => ?_, fun row rest v hs hv => ?_, fun e rest hs => ?_⟩
  · simp only [parse_expr, hp, ok_bind, hs]
  · simp only [parse_expr, hp, ok_bind, hs, hv]; rfl
  · simp only [parse_expr, hp, ok_bind, hs, error_bind]

/-- Witness for C2: against a store yielding the rows [5] and [6], the nested
SELECT materializes the first column of the first row, value 5, although a
second row exists. -/
theorem parse_expr_nested_select_first_row_witness :
    parse_expr rowStore ctx0 (.base (.nestedSelect 0))
      = .ok (.value (.i64 5)) :=
  (parse_expr_nested_select_first_row rowStore ctx0 0 [] rfl).2.1
    [Value.i64 5] [.ok [Value.i64 6]] (.i64 5) rfl rfl

/-- C5: an Arithmetic node, a bare base term in boolean position, and a
comparison or logical tree whose operator is not Equal, NotEqual, In, And or
Or all evaluate to the Unimplemented error. -/
theorem unsupported_shapes_unimplemented (storage : Store)
    (filter_context : FilterContext) :
    (∀ a : Nat,
        check_expr storage filter_context (.arithmetic a)
          = .error .unimplemented)
    ∧ (∀ b : ConditionBase,
        check_expr storage filter_context (.base b) = .error .unimplemented)
    ∧ (∀ (op : Operator) (left right : ConditionExpression),
        op ≠ .equal → op ≠ .notEqual → op ≠ .inOp → op ≠ .andOp → op ≠ .orOp →
        check_expr storage filter_context (.comparisonOp ⟨op, left, right⟩)
            = .error .unimplemented
        ∧ check_expr storage filter_context (.logicalOp ⟨op, left, right⟩)
            = .error .unimplemented) := by
  refine ⟨fun _ => rfl, fun _ => rfl, fun op left right h1 h2 h3 h4 h5 => ?_⟩
  cases op <;> first
    | exact ⟨rfl, rfl⟩
    | simp_all

/-- Witness for C5: a less-than comparison evaluates to Unimplemented. -/
theorem unsupported_shapes_unimplemented_witness :
    check_expr eStore ctx0 (.comparisonOp ⟨.less, falseExpr, falseExpr⟩)
      = .error .unimplemented :=
  ((unsupported_shapes_unimplemented eStore ctx0).2.2 .less falseExpr falseExpr
    (by decide) (by decide) (by decide) (by decide) (by decide)).1

/-- C6: exists_in against a deferred nested-SELECT enumeration runs the
statement through the Store under the captured outer scope and scans the
first-column values of the resulting rows in order: the empty sequence gives
false, an error row (hit before any match) aborts the scan with that error
immediately, and a row whose first value equals the needle stops the scan
with true while a non-matching row continues into the rest. -/
theorem exists_in_nested_select_scan :
    (∀ (storage : Store) (self : Parsed) (statement : SelectStatement)
        (filter_context : FilterContext) (params : Params)
        (rows : List (Except Error Row)),
        storage.fetch_select_params statement = .ok params →
        storage.select statement params (some filter_context) = .ok rows →
        Parsed.exists_in storage self (.value statement filter_context)
          = scanRows self rows)
    ∧ (∀ self : Parsed, scanRows self [] = .ok false)
    ∧ (∀ (self : Parsed) (e : Error) (rest : List (Except Error Row)),
        scanRows self (.error e :: rest) = .error e)
    ∧ (∀ (self : Parsed) (row : Row) (v : Value)
        (rest : List (Except Error Row)),
        Row.take_first_value row = .ok v →
        scanRows self (.ok row :: rest)
          = if Parsed.eq (.value v) self then .ok true
            else scanRows self rest) := by
  refine ⟨fun storage self statement filter_context params rows hp hs => ?_,
    fun _ => rfl, fun _ _ _ => rfl, fun self row v rest hv => ?_⟩
  · simp only [Parsed.exists_in, hp, ok_bind, hs]
  · simp only [scanRows, Except.bind, hv]

/-- Witness for C6: with the store yielding rows [5] and [6] and needle
literal 6, the scan passes the non-matching first row and stops with true at
the second. -/
theorem exists_in_nested_select_scan_witness :
    Parsed.exists_in rowStore (.literalRef (.integer 6)) (.value 0 ctx0)
      = .ok true := by
  have h := exists_in_nested_select_scan.1 rowStore (.literalRef (.integer 6))
    0 ctx0 [] [.ok [Value.i64 5], .ok [Value.i64 6]] rfl rfl
  rw [h]; rfl

/-- Folding a join chain onto an outer scope into a scope chain, following
the spec contract for Join Context to Scope Context folding: the innermost
join frame is folded together with the outer scope into a scope frame, and
the process recurses into the next joined frame using the newly built scope
as its outer context; the last frame yields the fully folded scope. -/
def foldJoinChain (outer : Option FilterContext) : BlendContext → FilterContext
  | .frame table columns row next =>
    let scope := FilterContext.frame table columns row outer
    match next with
    | some b => foldJoinChain (some scope) b
    | none => scope

/-- Blended evaluation equals plain evaluation against the folded scope, for
every join chain and outer scope. -/
theorem check_blended_expr_eq_fold (storage : Store)
    (expr : ConditionExpression) :
    ∀ (blend_context : BlendContext) (outer : Option FilterContext),
      check_blended_expr storage outer blend_context expr
        = check_expr storage (foldJoinChain outer blend_context) expr
  | .frame t c r none, outer => by
      simp [check_blended_expr, foldJoinChain]
  | .frame t c r (some b), outer => by
      simp only [check_blended_expr, foldJoinChain]
      exact check_blended_expr_eq_fold storage expr b (some (.frame t c r outer))

/-- C4: for every join-row chain, optional outer scope and expression,
check_blended_expr equals check_expr against the scope chain obtained by
folding the join frames in order onto the outer scope; consequently
BlendedFilter::check with a WHERE clause and a join chain reduces to the
plain evaluator over the folded scope built on top of the candidate-row
frame. -/
theorem blended_check_refines_filter_eval :
    (∀ (storage : Store) (outer : Option FilterContext)
        (blend_context : BlendContext) (expr : ConditionExpression),
        check_blended_expr storage outer blend_context expr
          = check_expr storage (foldJoinChain outer blend_context) expr)
    ∧ (∀ (storage : Store) (next : Option FilterContext)
        (blend_context : BlendContext) (expr : ConditionExpression)
        (table : Table) (columns : List Column) (row : Row),
        BlendedFilter.check ⟨⟨storage, some expr, next⟩, some blend_context⟩
            table columns row
          = check_expr storage
              (foldJoinChain (some (.frame table columns row next))
                blend_context) expr) := by
  refine ⟨fun s o b e => check_blended_expr_eq_fold s e b o,
    fun s next b e t c r => ?_⟩
  show check_blended_expr s (some (.frame t c r next)) b e = _
  exact check_blended_expr_eq_fold s e b (some (.frame t c r next))

end GlueFilter
